import Mathlib

/-
Verification of the ducktube frontend player and encoder configuration.

The definitions below are a shallow embedding of
src/frontend/src/MotherDuckVideoPlayer.js and of the encoder
configuration schema in src/ducktube/spec.json.  SQL aggregate and
filter expressions are modelled over an explicit list of table rows;
the setInterval timer and the asynchronous query responses are
modelled as explicit event sequences; the canvas is modelled as a
dense buffer of one colour per logical cell (the component draws each
data pixel as one pixelSize by pixelSize rectangle, and pixelSize is
the exact integer canvas.width / canvasSize.width, so the canvas is
faithfully a width by height grid of cells; drawing outside the
canvas bounds is clipped by the canvas, leaving the buffer unchanged).
-/

/-- One row of the ducktube.main.video_frames table as selected by the
frontend queries: integer payload columns, any of which may be NULL,
plus the video_url grouping key. -/
structure PixelRow where
  frame_id : Int
  x : Int
  y : Int
  value : Option Int
  r : Option Int
  g : Option Int
  b : Option Int
  video_url : String
deriving DecidableEq, Repr

/-- SQL MAX over a nullable integer column: NULL entries are ignored
and the result is NULL exactly when no non-NULL entry exists. -/
def sqlMax : List (Option Int) → Option Int
  | [] => none
  | none :: rest => sqlMax rest
  | some v :: rest =>
      match sqlMax rest with
      | none => some v
      | some m => some (max v m)

/-- the WHERE video_url clause shared by the metadata and frame
queries of the component. -/
def rowsForVideo (db : List PixelRow) (url : String) : List PixelRow :=
  db.filter (fun row => row.video_url == url)

/-- the width column of the metadata query in loadVideoMetadata:
CAST(MAX(x) + 1 AS INTEGER). -/
def queryWidth (db : List PixelRow) (url : String) : Option Int :=
  (sqlMax ((rowsForVideo db url).map (fun row => some row.x))).map (fun m => m + 1)

/-- the height column of the metadata query in loadVideoMetadata:
CAST(MAX(y) + 1 AS INTEGER). -/
def queryHeight (db : List PixelRow) (url : String) : Option Int :=
  (sqlMax ((rowsForVideo db url).map (fun row => some row.y))).map (fun m => m + 1)

/-- the total_frames column of the metadata query in
loadVideoMetadata: CAST(COUNT(DISTINCT frame_id) AS INTEGER). -/
def queryTotalFrames (db : List PixelRow) (url : String) : Nat :=
  ((rowsForVideo db url).map (fun row => row.frame_id)).dedup.length

/-- the mode column of the metadata query in loadVideoMetadata:
CASE WHEN MAX(r) IS NOT NULL THEN color WHEN MAX(value) <= 1 THEN
binary ELSE grayscale END.  A NULL MAX(value) makes the second WHEN
test not true, so the CASE falls through to the ELSE branch. -/
def queryMode (db : List PixelRow) (url : String) : String :=
  if (sqlMax ((rowsForVideo db url).map (fun row => row.r))).isSome then "color"
  else
    match sqlMax ((rowsForVideo db url).map (fun row => row.value)) with
    | some m => if m ≤ 1 then "binary" else "grayscale"
    | none => "grayscale"

/-- the mode rule in the words of the spec: color when any r is
present, else binary when every observed value lies in 0..1, else
grayscale.  Stated separately from queryMode so the two can be
compared. -/
def specMode (rows : List PixelRow) : String :=
  if rows.any (fun row => row.r.isSome) then "color"
  else if rows.all (fun row =>
      match row.value with
      | some v => decide (v = 0 ∨ v = 1)
      | none => true) then "binary"
  else "grayscale"

/-- the payload exclusivity invariant of the data model: a row carries
either a value or a full (r,g,b) triple, never both. -/
def payloadExclusive (row : PixelRow) : Bool :=
  (row.value.isSome && row.r.isNone && row.g.isNone && row.b.isNone)
  || (row.value.isNone && row.r.isSome && row.g.isSome && row.b.isSome)

/-- the value range invariant of the data model: a present value lies
in 0..255. -/
def valueInRange (row : PixelRow) : Bool :=
  match row.value with
  | some v => decide (0 ≤ v) && decide (v ≤ 255)
  | none => true

/-- the ORDER BY y, x key of the loadFrame query. -/
def frameOrder (a b : PixelRow) : Prop :=
  a.y < b.y ∨ (a.y = b.y ∧ a.x ≤ b.x)

instance : DecidableRel frameOrder := fun a b => by
  unfold frameOrder
  infer_instance

/-- the loadFrame query: rows of one frame of the selected video,
ORDER BY y, x (a stable sort on the (y, x) key). -/
def queryFrame (db : List PixelRow) (url : String) (frameId : Int) : List PixelRow :=
  List.insertionSort frameOrder
    (db.filter (fun row => row.frame_id == frameId && row.video_url == url))

/-- a colour as put on the canvas, one channel triple. -/
abbrev Color := Int × Int × Int

/-- the background colour the canvas is cleared to: fillStyle FFFFFF. -/
def white : Color := (255, 255, 255)

/-- the colour 000000 used for an on pixel in binary mode. -/
def black : Color := (0, 0, 0)

/-- CSS rgb() clamps every channel into 0..255. -/
def clampChannel (v : Int) : Int := max 0 (min 255 v)

/-- the fillStyle rgb(v,v,v) of grayscale mode. -/
def grayColor (v : Int) : Color := (clampChannel v, clampChannel v, clampChannel v)

/-- the fillStyle rgb(r,g,b) of color mode. -/
def rgbColor (rv gv bv : Int) : Color := (clampChannel rv, clampChannel gv, clampChannel bv)

/-- the metadata object built by loadVideoMetadata; width and height
come from SQL aggregates and may be NULL, fps is the constant 25. -/
structure Metadata where
  target_width : Option Int
  target_height : Option Int
  fps : Nat
  mode : String
deriving DecidableEq, Repr

/-- the fillStyle chosen while drawing one row in renderFrame.  A
missing colour component interpolates as the text undefined, giving an
invalid CSS colour, which leaves the current fillStyle unchanged; a
mode outside the three known ones sets no fillStyle at all. -/
def styleFor (mode : String) (row : PixelRow) (cur : Color) : Color :=
  if mode = "binary" then (if row.value = some 1 then black else white)
  else if mode = "grayscale" then
    match row.value with
    | some v => grayColor v
    | none => cur
  else if mode = "color" then
    match row.r, row.g, row.b with
    | some rv, some gv, some bv => rgbColor rv gv bv
    | _, _, _ => cur
  else cur

/-- the canvas content as a dense row-major buffer of cell colours. -/
abbrev Canvas := List Color

/-- one fillRect of a logical cell at (x, y): the canvas clips drawing
outside its bounds, so an out-of-range cell leaves the buffer
unchanged. -/
def fillCell (cv : Canvas) (w h : Nat) (x y : Int) (c : Color) : Canvas :=
  if 0 ≤ x ∧ x < (w : Int) ∧ 0 ≤ y ∧ y < (h : Int) then
    cv.set (y.toNat * w + x.toNat) c
  else cv

/-- the pixels.forEach loop of renderFrame: draw each row in order,
threading the canvas context fillStyle through the loop. -/
def drawRows (mode : String) (w h : Nat) : List PixelRow → Canvas → Color → Canvas
  | [], cv, _ => cv
  | row :: rest, cv, cur =>
      drawRows mode w h rest
        (fillCell cv w h row.x row.y (styleFor mode row cur))
        (styleFor mode row cur)

/-- renderFrame: returns untouched when the canvas ref is null, the
pixel list is empty, or metadata is null; otherwise clears the whole
canvas to white and draws every row. -/
def renderFrame (canvas : Option Canvas) (pixels : List PixelRow)
    (metadata : Option Metadata) (w h : Nat) : Option Canvas :=
  match canvas with
  | none => none
  | some cv =>
      if pixels.length = 0 then some cv
      else
        match metadata with
        | none => some cv
        | some md => some (drawRows md.mode w h pixels (List.replicate (w * h) white) white)

/-- the console output of renderFrame: the source body of renderFrame
contains no logging call, so its log is empty on every input. -/
def renderFrameLog (_canvas : Option Canvas) (_pixels : List PixelRow)
    (_metadata : Option Metadata) (_w _h : Nat) : List String := []

/-- whether a row is inside the width by height canvas. -/
def inRange (w h : Nat) (row : PixelRow) : Bool :=
  decide (0 ≤ row.x ∧ row.x < (w : Int) ∧ 0 ≤ row.y ∧ row.y < (h : Int))

/-- whether drawing a row touches buffer index i. -/
def covers (w h : Nat) (row : PixelRow) (i : Nat) : Bool :=
  inRange w h row && (row.y.toNat * w + row.x.toNat == i)

/-- whether a row carries the colour components its mode reads, so
that its fillStyle does not fall back on the previous one. -/
def wfRow (mode : String) (row : PixelRow) : Bool :=
  if mode = "binary" then true
  else if mode = "grayscale" then row.value.isSome
  else if mode = "color" then row.r.isSome && row.g.isSome && row.b.isSome
  else false

/-- one event of the frame fetch loop: a fetch being issued for a
frame index, or the response of an issued fetch arriving. -/
inductive FetchEv where
  | issue (frameId : Int)
  | arrive (frameId : Int)
deriving DecidableEq, Repr

/-- the fetch-related component state: the outstanding requests and
the pixel rows last applied by setPixels. -/
structure FetchState where
  pending : List Int
  pixels : List PixelRow
deriving DecidableEq, Repr

/-- one step of the fetch loop.  Issuing starts the query and records
it outstanding.  When a response arrives, loadFrame applies setPixels
unconditionally: the source carries no request token and never
compares the response against the most recently issued request. -/
def fetchStep (db : List PixelRow) (url : String) (s : FetchState) : FetchEv → FetchState
  | FetchEv.issue f => { s with pending := s.pending ++ [f] }
  | FetchEv.arrive f =>
      { pending := s.pending.erase f, pixels := queryFrame db url f }

/-- run the fetch loop over a whole event sequence. -/
def runFetch (db : List PixelRow) (url : String) (s : FetchState)
    (evs : List FetchEv) : FetchState :=
  evs.foldl (fetchStep db url) s

/-- the frame whose response is the last to arrive in the sequence. -/
def lastArrival : List FetchEv → Option Int
  | [] => none
  | FetchEv.issue _ :: rest => lastArrival rest
  | FetchEv.arrive f :: rest =>
      match lastArrival rest with
      | some g => some g
      | none => some f

/-- an event sequence is valid when every arrival answers a fetch that
was issued earlier and not yet answered. -/
def validFrom (pending : List Int) : List FetchEv → Bool
  | [] => true
  | FetchEv.issue f :: rest => validFrom (pending ++ [f]) rest
  | FetchEv.arrive f :: rest => pending.contains f && validFrom (pending.erase f) rest

/-- the fetch state before any request. -/
def initFetch : FetchState := { pending := [], pixels := [] }

/-- a JavaScript value as the component passes them around: a real
MotherDuck connection wrapping the table, a string, or undefined. -/
inductive JVal where
  | jconn (db : List PixelRow)
  | jstr (s : String)
  | jundef
deriving DecidableEq, Repr

/-- JavaScript truthiness of such a value. -/
def JVal.truthy : JVal → Bool
  | JVal.jconn _ => true
  | JVal.jstr s => !(s == "")
  | JVal.jundef => false

/-- JavaScript template literal interpolation of such a value. -/
def JVal.interp : JVal → String
  | JVal.jconn _ => "[object Object]"
  | JVal.jstr s => s
  | JVal.jundef => "undefined"

/-- the component state touched by video selection and playback. -/
structure PlayerState where
  canvasSize : Option Int × Option Int
  currentFrame : Nat
  isPlaying : Bool
  totalFrames : Nat
  pixels : List PixelRow
  metadata : Option Metadata
  selectedVideo : String
  frameInterval : Option Nat
  errorLog : List String
deriving DecidableEq, Repr

/-- loadVideoMetadata(connection, videoUrl): returns at once when the
connection argument is falsy; when it is a real connection, evaluates
the metadata query for the interpolated videoUrl and stores the
result, resetting currentFrame to 0; calling evaluateQuery on any
other value throws, and the catch block logs the error through
console.error, leaving the rest of the state unchanged. -/
def loadVideoMetadata (connection : JVal) (videoUrl : JVal) (st : PlayerState) : PlayerState :=
  if !connection.truthy then st
  else
    match connection with
    | JVal.jconn db =>
        let url := videoUrl.interp
        { st with
          metadata := some
            { target_width := queryWidth db url
              target_height := queryHeight db url
              fps := 25
              mode := queryMode db url }
          canvasSize := (queryWidth db url, queryHeight db url)
          totalFrames := queryTotalFrames db url
          currentFrame := 0 }
    | _ => { st with errorLog := st.errorLog ++ ["Error loading video metadata"] }

/-- handleVideoSelect: stores the chosen url in selectedVideo, then
calls loadVideoMetadata with the url as its single argument, so the
url lands in the connection parameter and the videoUrl parameter is
undefined. -/
def handleVideoSelect (url : String) (st : PlayerState) : PlayerState :=
  loadVideoMetadata (JVal.jstr url) JVal.jundef { st with selectedVideo := url }

/-- the component state together with the runtime timer table: the
identifiers of the live interval timers and the next fresh id. -/
structure TimerSystem where
  player : PlayerState
  timers : List Nat
  nextId : Nat
deriving DecidableEq, Repr

/-- a user or timer action on the player. -/
inductive UiOp where
  | play
  | pause
  | tick
deriving DecidableEq, Repr

/-- the frame advance of the interval callback in playVideo:
(prev + 1) % totalFrames. -/
def tickAdvance (total prev : Nat) : Nat := (prev + 1) % total

/-- the tick interval passed to setInterval:
1000 / (metadata?.fps || 25). -/
def intervalMs (metadata : Option Metadata) : Nat :=
  1000 / (match metadata with
          | some md => if md.fps = 0 then 25 else md.fps
          | none => 25)

/-- playVideo: returns at once when an interval already exists or
totalFrames is 0; otherwise marks the player as playing and installs
a fresh interval timer. -/
def playVideo (s : TimerSystem) : TimerSystem :=
  if s.player.frameInterval.isSome = true ∨ s.player.totalFrames = 0 then s
  else
    { player := { s.player with isPlaying := true, frameInterval := some s.nextId }
      timers := s.timers ++ [s.nextId]
      nextId := s.nextId + 1 }

/-- pauseVideo: clears the interval when one exists, then marks the
player as not playing. -/
def pauseVideo (s : TimerSystem) : TimerSystem :=
  match s.player.frameInterval with
  | some i =>
      { s with
        timers := s.timers.erase i
        player := { s.player with frameInterval := none, isPlaying := false } }
  | none => { s with player := { s.player with isPlaying := false } }

/-- one firing of the installed interval callback. -/
def timerTick (s : TimerSystem) : TimerSystem :=
  if s.player.frameInterval.isSome then
    { s with player :=
        { s.player with
          currentFrame := tickAdvance s.player.totalFrames s.player.currentFrame } }
  else s

/-- dispatch of one action. -/
def uiStep (s : TimerSystem) : UiOp → TimerSystem
  | UiOp.play => playVideo s
  | UiOp.pause => pauseVideo s
  | UiOp.tick => timerTick s

/-- run a whole action sequence. -/
def runUi (s : TimerSystem) (ops : List UiOp) : TimerSystem :=
  ops.foldl uiStep s

/-- the component state right after mount for a video with the given
frame count. -/
def initPlayer (total : Nat) : PlayerState :=
  { canvasSize := (some 160, some 90)
    currentFrame := 0
    isPlaying := false
    totalFrames := total
    pixels := []
    metadata := none
    selectedVideo := ""
    frameInterval := none
    errorLog := [] }

/-- the whole system right after mount. -/
def initSystem (total : Nat) : TimerSystem :=
  { player := initPlayer total, timers := [], nextId := 0 }

/-- the timer discipline: the live timers are exactly the one stored
in frameInterval, so at most one interval timer is ever live, and a
video with zero frames is never playing. -/
def timerInvariant (s : TimerSystem) : Prop :=
  (∀ i, s.player.frameInterval = some i → s.timers = [i])
  ∧ (s.player.frameInterval = none → s.timers = [])
  ∧ s.timers.length ≤ 1
  ∧ (s.player.totalFrames = 0 → s.player.frameInterval = none ∧ s.player.isPlaying = false)

/-- the recognized mode values of the encoder configuration schema. -/
def modeChoices : List String := ["binary", "grayscale", "color"]

/-- an encoder configuration, the recognized options of
src/ducktube/spec.json. -/
structure EncoderConfig where
  url : String
  target_width : Int
  target_height : Int
  mode : String
  threshold : Int
  max_duration : Int
deriving DecidableEq, Repr

/-- conformance with the connectionSpecification of
src/ducktube/spec.json: url matching the anchored pattern https?://,
target_width at least 16, target_height at least 9, mode one of the
three enum values, threshold in 0..255, max_duration at least 1. -/
def conformsSpec (c : EncoderConfig) : Bool :=
  (c.url.startsWith "http://" || c.url.startsWith "https://")
  && decide (16 ≤ c.target_width)
  && decide (9 ≤ c.target_height)
  && decide (c.mode ∈ modeChoices)
  && decide (0 ≤ c.threshold)
  && decide (c.threshold ≤ 255)
  && decide (1 ≤ c.max_duration)

/-- Modelled from the spec: the encoder validation and processing
driver is not under src (only the schema declaration is); the spec
states a ConfigError is raised before any frame is processed when the
configuration violates the schema, and otherwise the frames are
processed.  Conformance itself is translated from
src/ducktube/spec.json. -/
def encodeJob (c : EncoderConfig) (frames : List Nat) : Except String (List Nat) :=
  if conformsSpec c then Except.ok frames else Except.error "ConfigError"

/-- a stored binary row of frame 3 of video v. -/
def rowF3 : PixelRow :=
  { frame_id := 3, x := 0, y := 0, value := some 1
    r := none, g := none, b := none, video_url := "v" }

/-- a stored binary row of frame 5 of video v, at another cell. -/
def rowF5 : PixelRow :=
  { frame_id := 5, x := 1, y := 1, value := some 1
    r := none, g := none, b := none, video_url := "v" }

/-- a two-frame table for video v. -/
def dbSmall : List PixelRow := [rowF3, rowF5]

/-- the schedule issuing frame 3 then frame 5 while both are
outstanding, with the response of frame 5 overtaking that of
frame 3. -/
def traceStale : List FetchEv :=
  [FetchEv.issue 3, FetchEv.issue 5, FetchEv.arrive 5, FetchEv.arrive 3]

/-- metadata of a 2 by 2 binary video. -/
def mdBinary : Metadata :=
  { target_width := some 2, target_height := some 2, fps := 25, mode := "binary" }

/-- metadata of a 2 by 2 grayscale video. -/
def mdGray : Metadata :=
  { target_width := some 2, target_height := some 2, fps := 25, mode := "grayscale" }

/-- a 2 by 2 canvas holding a previously drawn frame with two
distinct cell colours. -/
def cvMixed : Canvas := [black, white, white, black]

/-- a grayscale row of value 7 at cell (0,0). -/
def rowGray7 : PixelRow :=
  { frame_id := 1, x := 0, y := 0, value := some 7
    r := none, g := none, b := none, video_url := "v" }

/-- a grayscale row of value 9 at cell (0,0). -/
def rowGray9 : PixelRow :=
  { frame_id := 1, x := 0, y := 0, value := some 9
    r := none, g := none, b := none, video_url := "v" }

/-- a grayscale row whose x coordinate 5 lies outside a 2 by 2
canvas. -/
def rowOut : PixelRow :=
  { frame_id := 1, x := 5, y := 0, value := some 7
    r := none, g := none, b := none, video_url := "v" }

/-- the component state while video videoA is loaded and paused at
frame 7 of 9. -/
def stPrev : PlayerState :=
  { canvasSize := (some 2, some 2)
    currentFrame := 7
    isPlaying := false
    totalFrames := 9
    pixels := []
    metadata := some mdBinary
    selectedVideo := "videoA"
    frameInterval := none
    errorLog := [] }

/-- a configuration whose target_width 8 lies below the schema
minimum 16. -/
def cfgBelowMin : EncoderConfig :=
  { url := "https://example", target_width := 8, target_height := 90
    mode := "binary", threshold := 128, max_duration := 10 }

theorem sqlMax_eq_none_iff (l : List (Option Int)) :
    sqlMax l = none ↔ ∀ o ∈ l, o = none := by
  induction l with
  | nil => simp [sqlMax]
  | cons o rest ih =>
    cases o with
    | none => simpa [sqlMax] using ih
    | some v =>
      constructor
      · intro hcontra
        cases h : sqlMax rest <;> simp [sqlMax, h] at hcontra
      · intro hall
        exact absurd (hall (some v) (by simp)) (by simp)

theorem sqlMax_mem : ∀ {l : List (Option Int)} {m : Int},
    sqlMax l = some m → some m ∈ l := by
  intro l
  induction l with
  | nil => intro m h; simp [sqlMax] at h
  | cons o rest ih =>
    intro m h
    cases o with
    | none =>
      simp only [sqlMax] at h
      exact List.mem_cons_of_mem _ (ih h)
    | some v =>
      simp only [sqlMax] at h
      cases hr : sqlMax rest with
      | none =>
        rw [hr] at h
        injection h with h
        simp [h]
      | some m2 =>
        rw [hr] at h
        injection h with h
        rcases max_choice v m2 with hc | hc
        · rw [hc] at h
          simp [h]
        · rw [hc] at h
          subst h
          exact List.mem_cons_of_mem _ (ih hr)

theorem sqlMax_le : ∀ {l : List (Option Int)} {m : Int},
    sqlMax l = some m → ∀ v : Int, some v ∈ l → v ≤ m := by
  intro l
  induction l with
  | nil => intro m h; simp [sqlMax] at h
  | cons o rest ih =>
    intro m h v hv
    cases o with
    | none =>
      simp only [sqlMax] at h
      rcases List.mem_cons.mp hv with h1 | h1
      · cases h1
      · exact ih h v h1
    | some w =>
      simp only [sqlMax] at h
      cases hr : sqlMax rest with
      | none =>
        rw [hr] at h
        injection h with h
        rcases List.mem_cons.mp hv with h1 | h1
        · injection h1 with h1
          omega
        · exact absurd ((sqlMax_eq_none_iff rest).mp hr (some v) h1) (by simp)
      | some m2 =>
        rw [hr] at h
        injection h with h
        subst h
        rcases List.mem_cons.mp hv with h1 | h1
        · injection h1 with h1
          subst h1
          exact le_max_left v m2
        · exact le_trans (ih hr v h1) (le_max_right w m2)

theorem sqlMax_isSome_of_mem {l : List (Option Int)} {v : Int} (hv : some v ∈ l) :
    (sqlMax l).isSome = true := by
  cases h : sqlMax l with
  | none => exact absurd ((sqlMax_eq_none_iff l).mp h (some v) hv) (by simp)
  | some m => rfl

/-- C5: for a video with at least one stored row, the derived
metadata satisfies width = max(x) + 1, height = max(y) + 1 and
total_frames = count of distinct frame_id over the rows of that
video, where max is characterized as an attained upper bound and the
distinct count as the cardinality of the set of frame ids. -/
theorem videoMetadata_aggregates (db : List PixelRow) (url : String)
    (hne : rowsForVideo db url ≠ []) :
    ∃ mx my,
      queryWidth db url = some (mx + 1)
      ∧ (∃ row ∈ rowsForVideo db url, row.x = mx)
      ∧ (∀ row ∈ rowsForVideo db url, row.x ≤ mx)
      ∧ queryHeight db url = some (my + 1)
      ∧ (∃ row ∈ rowsForVideo db url, row.y = my)
      ∧ (∀ row ∈ rowsForVideo db url, row.y ≤ my)
      ∧ queryTotalFrames db url
          = ((rowsForVideo db url).map (fun row => row.frame_id)).toFinset.card := by
  obtain ⟨head, tail, hht⟩ := List.exists_cons_of_ne_nil hne
  have hxmem : some head.x ∈ (rowsForVideo db url).map (fun row => some row.x) := by
    rw [hht]; simp
  have hymem : some head.y ∈ (rowsForVideo db url).map (fun row => some row.y) := by
    rw [hht]; simp
  obtain ⟨mx, hmx⟩ := Option.isSome_iff_exists.mp (sqlMax_isSome_of_mem hxmem)
  obtain ⟨my, hmy⟩ := Option.isSome_iff_exists.mp (sqlMax_isSome_of_mem hymem)
  refine ⟨mx, my, ?_, ?_, ?_, ?_, ?_, ?_, ?_⟩
  · simp [queryWidth, hmx]
  · have := sqlMax_mem hmx
    obtain ⟨row, hrow, heq⟩ := List.mem_map.mp this
    exact ⟨row, hrow, by injection heq⟩
  · intro row hrow
    exact sqlMax_le hmx row.x (List.mem_map_of_mem _ hrow)
  · simp [queryHeight, hmy]
  · have := sqlMax_mem hmy
    obtain ⟨row, hrow, heq⟩ := List.mem_map.mp this
    exact ⟨row, hrow, by injection heq⟩
  · intro row hrow
    exact sqlMax_le hmy row.y (List.mem_map_of_mem _ hrow)
  · rw [queryTotalFrames, List.card_toFinset]

theorem videoMetadata_aggregates_witness :
    ∃ mx my,
      queryWidth dbSmall "v" = some (mx + 1)
      ∧ (∃ row ∈ rowsForVideo dbSmall "v", row.x = mx)
      ∧ (∀ row ∈ rowsForVideo dbSmall "v", row.x ≤ mx)
      ∧ queryHeight dbSmall "v" = some (my + 1)
      ∧ (∃ row ∈ rowsForVideo dbSmall "v", row.y = my)
      ∧ (∀ row ∈ rowsForVideo dbSmall "v", row.y ≤ my)
      ∧ queryTotalFrames dbSmall "v"
          = ((rowsForVideo dbSmall "v").map (fun row => row.frame_id)).toFinset.card :=
  videoMetadata_aggregates dbSmall "v" (by decide)

theorem conforms_iff (c : EncoderConfig) :
    conformsSpec c = true ↔
      ((c.url.startsWith "http://" || c.url.startsWith "https://") = true
       ∧ 16 ≤ c.target_width ∧ 9 ≤ c.target_height ∧ c.mode ∈ modeChoices
       ∧ 0 ≤ c.threshold ∧ c.threshold ≤ 255 ∧ 1 ≤ c.max_duration) := by
  simp only [conformsSpec, Bool.and_eq_true, decide_eq_true_eq, and_assoc]

/-- C9: a configuration with target_width below 16, target_height
below 9, threshold outside 0..255 or an unrecognized mode violates the
schema, and the encode job rejects it with a ConfigError instead of
processing any frame. -/
theorem configError_rejects (c : EncoderConfig) (frames : List Nat)
    (h : c.target_width < 16 ∨ c.target_height < 9 ∨ c.threshold < 0
        ∨ 255 < c.threshold ∨ c.mode ∉ modeChoices) :
    encodeJob c frames = Except.error "ConfigError" := by
  have hc : ¬ (conformsSpec c = true) := by
    intro htrue
    obtain ⟨hurl, hw, hh, hm, ht0, ht255, hd⟩ := (conforms_iff c).mp htrue
    rcases h with h | h | h | h | h
    · omega
    · omega
    · omega
    · omega
    · exact h hm
  simp [encodeJob, hc]

theorem configError_rejects_witness :
    encodeJob cfgBelowMin [0, 1, 2] = Except.error "ConfigError" :=
  configError_rejects cfgBelowMin [0, 1, 2] (Or.inl (by decide))

/-- C7: while a video with totalFrames greater than 0 is playing, the
interval callback installed by playVideo fires every
1000 / fps milliseconds and advances the frame index to
(index + 1) % totalFrames, an always-defined index below totalFrames
that wraps at the last frame; with three frames, k ticks from frame 0
reach frame k % 3, visiting 0,1,2,0,1,2,... indefinitely. -/
theorem playbackTickWraps (total : Nat) (htotal : 0 < total)
    (md : Metadata) (hfps : md.fps ≠ 0) :
    intervalMs (some md) = 1000 / md.fps
    ∧ (∀ i, tickAdvance total i = (i + 1) % total)
    ∧ (∀ i, tickAdvance total i < total)
    ∧ tickAdvance total (total - 1) = 0
    ∧ (∀ k, (tickAdvance 3)^[k] 0 = k % 3) := by
  refine ⟨?_, fun i => rfl, fun i => Nat.mod_lt _ htotal, ?_, ?_⟩
  · simp [intervalMs, hfps]
  · unfold tickAdvance
    have h1 : total - 1 + 1 = total := by omega
    rw [h1]
    exact Nat.mod_self total
  · intro k
    induction k with
    | zero => rfl
    | succ k ih =>
        rw [Function.iterate_succ_apply', ih]
        unfold tickAdvance
        omega

theorem playbackTickWraps_witness :
    intervalMs (some mdBinary) = 1000 / mdBinary.fps ∧ tickAdvance 3 2 = 0 := by
  refine ⟨(playbackTickWraps 3 (by decide) mdBinary (by decide)).1, ?_⟩
  exact (playbackTickWraps 3 (by decide) mdBinary (by decide)).2.2.2.1

/-- C8: evaluation of the code at the failing input.  Selecting video
videoB while videoA is loaded at frame 7 stores the new url in
selectedVideo, but handleVideoSelect passes that url as the single
argument of loadVideoMetadata, so the url occupies the connection
parameter and the videoUrl parameter is undefined; evaluateQuery on a
string throws, the catch block logs the error, and no metadata query
for videoB is ever issued: metadata, totalFrames and currentFrame keep
the values of videoA and the frame index is not reset to 0. -/
theorem videoSelect_bug :
    handleVideoSelect "videoB" stPrev
        = { stPrev with
            selectedVideo := "videoB"
            errorLog := ["Error loading video metadata"] }
    ∧ (handleVideoSelect "videoB" stPrev).currentFrame = 7
    ∧ (handleVideoSelect "videoB" stPrev).metadata = some mdBinary
    ∧ (handleVideoSelect "videoB" stPrev).totalFrames = 9 :=
  ⟨rfl, rfl, rfl, rfl⟩

theorem uiStep_invariant (s : TimerSystem) (op : UiOp) (hinv : timerInvariant s) :
    timerInvariant (uiStep s op) := by
  obtain ⟨hsome, hnone, hlen, hzero⟩ := hinv
  cases op with
  | play =>
    show timerInvariant (playVideo s)
    unfold playVideo
    by_cases hguard : s.player.frameInterval.isSome = true ∨ s.player.totalFrames = 0
    · rw [if_pos hguard]
      exact ⟨hsome, hnone, hlen, hzero⟩
    · rw [if_neg hguard]
      push_neg at hguard
      obtain ⟨hnotsome, hnz⟩ := hguard
      have hfi : s.player.frameInterval = none := by
        cases h : s.player.frameInterval with
        | none => rfl
        | some i => rw [h] at hnotsome; simp at hnotsome
      have htimers : s.timers = [] := hnone hfi
      refine ⟨?_, ?_, ?_, ?_⟩
      · intro i hi
        injection hi with hi
        subst hi
        simp [htimers]
      · intro hcontra
        simp at hcontra
      · simp [htimers]
      · intro h0
        exact absurd h0 hnz
  | pause =>
    show timerInvariant (pauseVideo s)
    unfold pauseVideo
    cases h : s.player.frameInterval with
    | some i =>
      refine ⟨?_, ?_, ?_, ?_⟩
      · intro j hj
        simp at hj
      · intro _
        simp only
        rw [hsome i h]
        simp
      · simp only
        rw [hsome i h]
        simp
      · intro _
        exact ⟨rfl, rfl⟩
    | none =>
      refine ⟨?_, ?_, ?_, ?_⟩
      · intro j hj
        simp only at hj
        rw [h] at hj
        cases hj
      · intro _
        exact hnone h
      · exact hlen
      · intro _
        exact ⟨h, rfl⟩
  | tick =>
    show timerInvariant (timerTick s)
    unfold timerTick
    by_cases hfi : s.player.frameInterval.isSome = true
    · rw [if_pos hfi]
      exact ⟨hsome, hnone, hlen, fun h0 => ⟨(hzero h0).1, (hzero h0).2⟩⟩
    · rw [if_neg hfi]
      exact ⟨hsome, hnone, hlen, hzero⟩

theorem runUi_invariant (ops : List UiOp) :
    ∀ s : TimerSystem, timerInvariant s → timerInvariant (runUi s ops) := by
  induction ops with
  | nil => intro s h; exact h
  | cons op rest ih =>
    intro s h
    exact ih (uiStep s op) (uiStep_invariant s op h)

theorem initSystem_invariant (total : Nat) : timerInvariant (initSystem total) := by
  refine ⟨?_, fun _ => rfl, by simp [initSystem], fun _ => ⟨rfl, rfl⟩⟩
  intro i hi
  cases hi

/-- C10: calling play with a timer already installed or with zero
frames leaves the whole system unchanged, and under every sequence of
play, pause and tick actions the timer table always holds exactly the
timer stored in frameInterval, hence at most one timer, and a
zero-frame video is never playing. -/
theorem play_noop_guard :
    (∀ s : TimerSystem,
        (s.player.frameInterval.isSome = true ∨ s.player.totalFrames = 0) →
        playVideo s = s)
    ∧ (∀ total : Nat, ∀ ops : List UiOp, timerInvariant (runUi (initSystem total) ops)) := by
  constructor
  · intro s h
    unfold playVideo
    rw [if_pos h]
  · intro total ops
    exact runUi_invariant ops (initSystem total) (initSystem_invariant total)

theorem play_noop_guard_witness :
    playVideo (initSystem 0) = initSystem 0 :=
  play_noop_guard.1 (initSystem 0) (Or.inr rfl)

theorem runFetch_cons (db : List PixelRow) (url : String) (s : FetchState)
    (e : FetchEv) (evs : List FetchEv) :
    runFetch db url s (e :: evs) = runFetch db url (fetchStep db url s e) evs := rfl

/-- C1 counterexample: in the valid schedule that issues a fetch for
frame 3, then a fetch for frame 5 while frame 3 is still outstanding,
and whose responses arrive out of order (frame 5 first, then frame 3),
the pixels finally applied are those of frame 3, although the claim
requires frame 5 and never frame 3 to render once the fetch for
frame 5 has been issued. -/
theorem lastRequestWins_cex :
    validFrom [] traceStale = true
    ∧ (runFetch dbSmall "v" initFetch traceStale).pixels = queryFrame dbSmall "v" 3
    ∧ queryFrame dbSmall "v" 3 ≠ queryFrame dbSmall "v" 5 := by decide

/-- C1 amended: loadFrame carries no request token and applies every
response through setPixels on arrival, so after any event sequence the
rendered pixel rows are those of the response that arrived last — the
last response wins, not the last request, and an older fetch can
overwrite a newer one whenever responses arrive out of order. -/
theorem lastResponseWins (db : List PixelRow) (url : String) (s : FetchState)
    (evs : List FetchEv) :
    (runFetch db url s evs).pixels =
      match lastArrival evs with
      | some f => queryFrame db url f
      | none => s.pixels := by
  induction evs generalizing s with
  | nil => rfl
  | cons e rest ih =>
    cases e with
    | issue f =>
      rw [runFetch_cons, ih]
      cases h : lastArrival rest <;> simp [lastArrival, h, fetchStep]
    | arrive f =>
      rw [runFetch_cons, ih]
      cases h : lastArrival rest <;> simp [lastArrival, h, fetchStep]

/-- C2 counterexample: with an empty row set renderFrame returns the
previous canvas untouched; the result keeps two distinct colours
(black at cell 0, white at cell 1), so it is not an all-background
frame for any single background value, and it is a no-op rather than a
normal assembly. -/
theorem emptyRows_cex :
    renderFrame (some cvMixed) [] (some mdBinary) 2 2 = some cvMixed
    ∧ cvMixed[0]? = some black
    ∧ cvMixed[1]? = some white
    ∧ white ≠ black := by decide

/-- C2 amended: an empty row set makes renderFrame return the canvas
unchanged: the early guard on pixels.length fires before any clearing
or drawing, so the previous content persists and nothing is
assembled. -/
theorem emptyRows_noop (cv : Canvas) (metadata : Option Metadata) (w h : Nat) :
    renderFrame (some cv) [] metadata w h = some cv := rfl

theorem drawRows_not_covered (mode : String) (w h : Nat) :
    ∀ (rows : List PixelRow) (cv : Canvas) (cur : Color) (i : Nat),
      (∀ row ∈ rows, covers w h row i = false) →
      (drawRows mode w h rows cv cur)[i]? = cv[i]? := by
  intro rows
  induction rows with
  | nil => intro cv cur i _; rfl
  | cons row rest ih =>
    intro cv cur i hno
    have hrow := hno row (by simp)
    have hrest : ∀ r2 ∈ rest, covers w h r2 i = false :=
      fun r2 hr2 => hno r2 (by simp [hr2])
    show (drawRows mode w h rest _ _)[i]? = _
    rw [ih _ _ _ hrest]
    unfold fillCell
    split
    case isTrue hin =>
      have hidx : row.y.toNat * w + row.x.toNat ≠ i := by
        intro heq
        have hcov : covers w h row i = true := by
          unfold covers inRange
          simp [hin, heq]
        rw [hcov] at hrow
        cases hrow
      exact List.getElem?_set_ne hidx
    case isFalse hout => rfl

theorem drawRows_length (mode : String) (w h : Nat) :
    ∀ (rows : List PixelRow) (cv : Canvas) (cur : Color),
      (drawRows mode w h rows cv cur).length = cv.length := by
  intro rows
  induction rows with
  | nil => intro cv cur; rfl
  | cons row rest ih =>
    intro cv cur
    show (drawRows mode w h rest _ _).length = _
    rw [ih]
    unfold fillCell
    split
    · exact List.length_set cv _ _
    · rfl

/-- C3 counterexample: assembling a nonempty grayscale row set on a
2 by 2 canvas leaves every uncovered cell white (255,255,255), not at
the claimed background default 0: cell 3 of the output is white. -/
theorem background_cex :
    renderFrame (some cvMixed) [rowGray7] (some mdGray) 2 2
        = some [grayColor 7, white, white, white]
    ∧ ([grayColor 7, white, white, white] : Canvas)[3]? = some white
    ∧ white ≠ black := by decide

/-- C3 amended: assembly starts from a dense width times height buffer
pre-filled with white (255,255,255) in every mode — the canvas is
cleared with fillStyle FFFFFF — then writes each row at its (x,y)
cell, so every in-range cell not covered by any row is white, not 0,
in the output frame. -/
theorem background_white (cv : Canvas) (pixels : List PixelRow) (md : Metadata)
    (w h : Nat) (hne : pixels ≠ []) (i : Nat) (hi : i < w * h)
    (hnc : ∀ row ∈ pixels, covers w h row i = false) :
    renderFrame (some cv) pixels (some md) w h
        = some (drawRows md.mode w h pixels (List.replicate (w * h) white) white)
    ∧ (drawRows md.mode w h pixels (List.replicate (w * h) white) white)[i]?
        = some white := by
  have hlen : ¬ pixels.length = 0 := by
    intro h0
    exact hne (List.length_eq_zero.mp h0)
  constructor
  · simp [renderFrame, hlen]
  · rw [drawRows_not_covered md.mode w h pixels _ _ i hnc]
    simp [List.getElem?_replicate, hi]

theorem background_white_witness :
    renderFrame (some cvMixed) [rowGray7] (some mdGray) 2 2
        = some (drawRows mdGray.mode 2 2 [rowGray7] (List.replicate (2 * 2) white) white)
    ∧ (drawRows mdGray.mode 2 2 [rowGray7] (List.replicate (2 * 2) white) white)[3]?
        = some white :=
  background_white cvMixed [rowGray7] mdGray 2 2 (by decide) 3 (by decide) (by decide)

theorem styleFor_wf (mode : String) (row : PixelRow) (hwf : wfRow mode row = true)
    (c1 c2 : Color) : styleFor mode row c1 = styleFor mode row c2 := by
  by_cases hb : mode = "binary"
  · subst hb
    simp [styleFor]
  · by_cases hg : mode = "grayscale"
    · subst hg
      simp only [wfRow, if_neg (by decide : ¬ ("grayscale" = "binary")), if_pos rfl] at hwf
      obtain ⟨v, hv⟩ := Option.isSome_iff_exists.mp hwf
      simp [styleFor, hv]
    · by_cases hc : mode = "color"
      · subst hc
        cases hrv : row.r with
        | none =>
          unfold wfRow at hwf
          rw [hrv] at hwf
          simp at hwf
        | some rv =>
          cases hgv : row.g with
          | none =>
            unfold wfRow at hwf
            rw [hgv] at hwf
            simp at hwf
          | some gv =>
            cases hbv : row.b with
            | none =>
              unfold wfRow at hwf
              rw [hbv] at hwf
              simp at hwf
            | some bv => simp [styleFor, hrv, hgv, hbv]
      · simp only [wfRow, if_neg hb, if_neg hg, if_neg hc] at hwf
        cases hwf

theorem drawRows_style_indep (mode : String) (w h : Nat) (rows : List PixelRow)
    (cv : Canvas) (c1 c2 : Color)
    (hwf : ∀ row ∈ rows, wfRow mode row = true) :
    drawRows mode w h rows cv c1 = drawRows mode w h rows cv c2 := by
  cases rows with
  | nil => rfl
  | cons row rest =>
    show drawRows mode w h rest _ _ = drawRows mode w h rest _ _
    rw [styleFor_wf mode row (hwf row (by simp)) c1 c2]

theorem drawRows_skip_oob (mode : String) (w h : Nat) :
    ∀ (rows : List PixelRow) (cv : Canvas) (cur : Color),
      (∀ row ∈ rows, wfRow mode row = true) →
      drawRows mode w h rows cv cur
        = drawRows mode w h (rows.filter (fun row => inRange w h row)) cv cur := by
  intro rows
  induction rows with
  | nil => intro cv cur _; rfl
  | cons row rest ih =>
    intro cv cur hwf
    have hrest : ∀ r2 ∈ rest, wfRow mode r2 = true :=
      fun r2 hr2 => hwf r2 (by simp [hr2])
    rw [List.filter_cons]
    by_cases hin : inRange w h row = true
    · rw [if_pos hin]
      show drawRows mode w h rest _ _ = drawRows mode w h (rest.filter _) _ _
      exact ih _ _ hrest
    · rw [if_neg hin]
      have hcell : fillCell cv w h row.x row.y (styleFor mode row cur) = cv := by
        unfold fillCell
        rw [if_neg]
        intro hprop
        exact hin (by unfold inRange; exact decide_eq_true hprop)
      show drawRows mode w h rest (fillCell cv w h row.x row.y _) _
          = drawRows mode w h (rest.filter _) cv cur
      rw [hcell]
      rw [drawRows_style_indep mode w h rest cv (styleFor mode row cur) cur hrest]
      exact ih cv cur hrest

/-- C4 counterexample: assembling a row set that contains the
out-of-range row (x = 5 on a 2 by 2 canvas) completes, skips that row
through canvas clipping and applies the remaining in-range row — but
nothing is logged: the console output of renderFrame is empty, while
the claim requires the offending row to be logged as non-fatal. -/
theorem oobRow_cex :
    renderFrameLog (some cvMixed) [rowOut, rowGray9] (some mdGray) 2 2 = []
    ∧ renderFrame (some cvMixed) [rowOut, rowGray9] (some mdGray) 2 2
        = some [grayColor 9, white, white, white] := by decide

/-- C4 amended: a row with x outside 0..width-1 or y outside
0..height-1 is silently clipped by the canvas: on a row set of
well-formed rows the assembled output equals the one drawn from the
in-range rows alone, the buffer keeps its width times height size (no
out-of-range write), and assembly completes for all remaining rows —
but no log entry is produced for the skipped row. -/
theorem oobRow_skipped (cv : Canvas) (pixels : List PixelRow) (md : Metadata)
    (w h : Nat) (hne : pixels ≠ [])
    (hwf : ∀ row ∈ pixels, wfRow md.mode row = true) :
    renderFrame (some cv) pixels (some md) w h
        = some (drawRows md.mode w h (pixels.filter (fun row => inRange w h row))
            (List.replicate (w * h) white) white)
    ∧ (drawRows md.mode w h pixels (List.replicate (w * h) white) white).length = w * h
    ∧ renderFrameLog (some cv) pixels (some md) w h = [] := by
  have hlen : ¬ pixels.length = 0 := by
    intro h0
    exact hne (List.length_eq_zero.mp h0)
  refine ⟨?_, ?_, rfl⟩
  · have hrf : renderFrame (some cv) pixels (some md) w h
        = some (drawRows md.mode w h pixels (List.replicate (w * h) white) white) := by
      simp [renderFrame, hlen]
    rw [hrf, drawRows_skip_oob md.mode w h pixels _ _ hwf]
  · rw [drawRows_length, List.length_replicate]

theorem oobRow_skipped_witness :
    renderFrame (some cvMixed) [rowOut, rowGray9] (some mdGray) 2 2
        = some (drawRows mdGray.mode 2 2
            ([rowOut, rowGray9].filter (fun row => inRange 2 2 row))
            (List.replicate (2 * 2) white) white)
    ∧ (drawRows mdGray.mode 2 2 [rowOut, rowGray9]
        (List.replicate (2 * 2) white) white).length = 2 * 2
    ∧ renderFrameLog (some cvMixed) [rowOut, rowGray9] (some mdGray) 2 2 = [] :=
  oobRow_skipped cvMixed [rowOut, rowGray9] mdGray 2 2 (by decide) (by decide)

/-- C6: on any nonempty video whose rows respect the data model
(payload exclusivity and the 0..255 value range), the CASE expression
of the metadata query agrees with the spec rule: color when any r is
present, else binary when every observed value lies in 0..1, else
grayscale. -/
theorem modeInference (db : List PixelRow) (url : String)
    (hne : rowsForVideo db url ≠ [])
    (hpayload : ∀ row ∈ rowsForVideo db url, payloadExclusive row = true)
    (hrange : ∀ row ∈ rowsForVideo db url, valueInRange row = true) :
    queryMode db url = specMode (rowsForVideo db url) := by
  by_cases hcolor : ∃ row ∈ rowsForVideo db url, row.r.isSome = true
  · obtain ⟨row0, hrow0, hr0⟩ := hcolor
    have hany : (rowsForVideo db url).any (fun row => row.r.isSome) = true :=
      List.any_eq_true.mpr ⟨row0, hrow0, hr0⟩
    obtain ⟨rv, hrv⟩ := Option.isSome_iff_exists.mp hr0
    have hmem : some rv ∈ (rowsForVideo db url).map (fun row => row.r) :=
      List.mem_map.mpr ⟨row0, hrow0, by rw [hrv]⟩
    have hsome := sqlMax_isSome_of_mem hmem
    simp [queryMode, specMode, hsome, hany]
  · push_neg at hcolor
    have hrnone : ∀ row ∈ rowsForVideo db url, row.r = none := by
      intro row hrow
      cases h : row.r with
      | none => rfl
      | some v =>
        have := hcolor row hrow
        rw [h] at this
        simp at this
    have hallnone : ∀ o ∈ (rowsForVideo db url).map (fun row => row.r), o = none := by
      intro o ho
      obtain ⟨row, hrow, hoeq⟩ := List.mem_map.mp ho
      rw [← hoeq]
      exact hrnone row hrow
    have hmaxr : sqlMax ((rowsForVideo db url).map (fun row => row.r)) = none :=
      (sqlMax_eq_none_iff _).mpr hallnone
    have hnotsome : (sqlMax ((rowsForVideo db url).map (fun row => row.r))).isSome = false := by
      rw [hmaxr]
      rfl
    have hanyfalse : (rowsForVideo db url).any (fun row => row.r.isSome) = false := by
      cases hane : (rowsForVideo db url).any (fun row => row.r.isSome) with
      | false => rfl
      | true =>
        obtain ⟨row, hrow, hp⟩ := List.any_eq_true.mp hane
        rw [hrnone row hrow] at hp
        cases hp
    have hvs : ∀ row ∈ rowsForVideo db url, ∃ v, row.value = some v := by
      intro row hrow
      have hp := hpayload row hrow
      unfold payloadExclusive at hp
      rw [hrnone row hrow] at hp
      simp only [Option.isNone_none, Option.isSome_none, Bool.and_true, Bool.and_false,
        Bool.false_and, Bool.or_false, Bool.and_eq_true] at hp
      exact Option.isSome_iff_exists.mp hp.1.1
    obtain ⟨head, tail, hht⟩ := List.exists_cons_of_ne_nil hne
    obtain ⟨v0, hv0⟩ := hvs head (by rw [hht]; simp)
    have hmem0 : some v0 ∈ (rowsForVideo db url).map (fun row => row.value) :=
      List.mem_map.mpr ⟨head, by rw [hht]; simp, hv0⟩
    obtain ⟨m, hm⟩ := Option.isSome_iff_exists.mp (sqlMax_isSome_of_mem hmem0)
    obtain ⟨rowm, hrowm, hrowmv⟩ := List.mem_map.mp (sqlMax_mem hm)
    have hub : ∀ row ∈ rowsForVideo db url, ∀ v, row.value = some v → v ≤ m := by
      intro row hrow v hv
      exact sqlMax_le hm v (List.mem_map.mpr ⟨row, hrow, hv⟩)
    by_cases hm1 : m ≤ 1
    · have hall : (rowsForVideo db url).all (fun row =>
          match row.value with
          | some v => decide (v = 0 ∨ v = 1)
          | none => true) = true := by
        rw [List.all_eq_true]
        intro row hrow
        obtain ⟨v, hv⟩ := hvs row hrow
        rw [hv]
        apply decide_eq_true
        have h1 := hub row hrow v hv
        have h2 := hrange row hrow
        unfold valueInRange at h2
        rw [hv] at h2
        simp only [Bool.and_eq_true, decide_eq_true_eq] at h2
        omega
      unfold queryMode specMode
      rw [hnotsome, hanyfalse, hm, hall]
      simp [hm1]
    · have hfail : (rowsForVideo db url).all (fun row =>
          match row.value with
          | some v => decide (v = 0 ∨ v = 1)
          | none => true) = false := by
        cases hal : (rowsForVideo db url).all (fun row =>
            match row.value with
            | some v => decide (v = 0 ∨ v = 1)
            | none => true) with
        | false => rfl
        | true =>
          have := List.all_eq_true.mp hal rowm hrowm
          rw [hrowmv] at this
          simp only [decide_eq_true_eq] at this
          omega
      unfold queryMode specMode
      rw [hnotsome, hanyfalse, hm, hfail]
      simp [hm1]

theorem modeInference_witness :
    queryMode dbSmall "v" = specMode (rowsForVideo dbSmall "v") :=
  modeInference dbSmall "v" (by decide) (by decide) (by decide)
